import Mathlib

/-!
Shallow embedding of the MIME decoding core of the imap-proxy service
(`decodePart`, `extractBodyFromSource`, `extractAttachmentsFromSource`,
`getTransporter`).  Strings are processed as their underlying `List Char`;
the JavaScript regular-expression scans of the source are embedded as
explicit left-to-right matchers with the same backtracking behaviour.
-/

set_option maxRecDepth 8000

/-- Character class of the source's regular-expression `\s`, of
`String.prototype.trim` and of the whitespace stripping done before base64
handling: ASCII whitespace plus no-break space.  (JS also counts a few rare
Unicode space characters; none can occur in any claim input.) -/
def jsIsSpace (c : Char) : Bool :=
  c == ' ' || c == '\t' || c == '\n' || c == '\r' || c == '\x0b' || c == '\x0c' || c == ' '

/-- ASCII lower-casing of one character, as `String.prototype.toLowerCase`
acts on the ASCII range (the only range the source ever lower-cases). -/
def lowerChar (c : Char) : Char :=
  if 'A' ≤ c ∧ c ≤ 'Z' then Char.ofNat (c.toNat + 32) else c

/-- Embeds `s.toLowerCase()`. -/
def jsToLower (s : String) : String :=
  String.mk (s.data.map lowerChar)

/-- Embeds `s.trim()`. -/
def jsTrim (s : String) : String :=
  String.mk (((s.data.dropWhile jsIsSpace).reverse.dropWhile jsIsSpace).reverse)

/-- Embeds `s.replace(/\s/g, "")`: remove every whitespace character. -/
def stripWs (s : String) : String :=
  String.mk (s.data.filter (fun c => !jsIsSpace c))

/-- Embeds `s.startsWith(p)`. -/
def jsStartsWith (s p : String) : Bool :=
  p.data.isPrefixOf s.data

/-- Scanning helper for `s.includes(sub)`. -/
def hasSubList (sub : List Char) : List Char → Bool
  | [] => sub.isEmpty
  | c :: cs => sub.isPrefixOf (c :: cs) || hasSubList sub cs

/-- Embeds `s.includes(sub)`. -/
def jsIncludes (s sub : String) : Bool :=
  hasSubList sub.data s.data

/-- Case-insensitive literal match: consume `pat` (given lower-case) from the
head of the text, returning the remainder. -/
def stripCaseLiteral : List Char → List Char → Option (List Char)
  | [], l => some l
  | _ :: _, [] => none
  | p :: ps, c :: cs => if lowerChar c = p then stripCaseLiteral ps cs else none

/-- A JS regex search (`String.prototype.match` without the `g` flag) tries
the pattern at each start position from the left and returns the first
success; `scanFirst f l` does the same with matcher `f`. -/
def scanFirst {α : Type} (f : List Char → Option α) : List Char → Option α
  | [] => f []
  | c :: cs =>
    match f (c :: cs) with
    | some r => some r
    | none => scanFirst f cs

/-- Character class `[^";\r\n]` of the `boundary=` / `filename=` regexes. -/
def boundAllowed (c : Char) : Bool :=
  !(c == '"' || c == ';' || c == '\r' || c == '\n')

/-- The `"?([^";\r\n]+)"?` tail of the `boundary=` / `filename=` regexes:
an optional opening quote (consumed greedily), then a non-empty greedy
capture of allowed characters.  If the quote is consumed but no allowed
character follows, the regex backtracks and fails at this position (the
quote itself is excluded from the class). -/
def quotedCapture (l : List Char) : Option (List Char) :=
  match l with
  | '"' :: rest =>
    let cap := rest.takeWhile boundAllowed
    if cap.isEmpty then none else some cap
  | _ =>
    let cap := l.takeWhile boundAllowed
    if cap.isEmpty then none else some cap

/-- Match `/boundary="?([^";\r\n]+)"?/i` at the head of `l`. -/
def matchBoundaryAt (l : List Char) : Option (List Char) :=
  match stripCaseLiteral ("boundary=").data l with
  | none => none
  | some rest => quotedCapture rest

/-- Embeds `s.match(/boundary="?([^";\r\n]+)"?/i)`, returning capture 1. -/
def findBoundary (s : String) : Option String :=
  match scanFirst matchBoundaryAt s.data with
  | some cap => some (String.mk cap)
  | none => none

/-- Match `/filename="?([^";\r\n]+)"?/i` at the head of `l`. -/
def matchFilenameAt (l : List Char) : Option (List Char) :=
  match stripCaseLiteral ("filename=").data l with
  | none => none
  | some rest => quotedCapture rest

/-- Greedy `\s*` followed by a non-empty greedy capture of `allowed`
characters, with the JS backtracking rule: prefer consuming as much
whitespace as possible, fall back to starting the capture on a whitespace
character that the class admits. -/
def wsGreedyCapture (allowed : Char → Bool) : List Char → Option (List Char)
  | [] => none
  | c :: cs =>
    if jsIsSpace c then
      match wsGreedyCapture allowed cs with
      | some r => some r
      | none => if allowed c then some (List.takeWhile allowed (c :: cs)) else none
    else if allowed c then some (List.takeWhile allowed (c :: cs)) else none

/-- Match `/content-transfer-encoding:\s*(\S+)/` at the head of `l`.  (The
source applies this regex to already lower-cased header text, so matching
the literal case-insensitively is equivalent at every call site.) -/
def matchCTEAt (l : List Char) : Option (List Char) :=
  match stripCaseLiteral ("content-transfer-encoding:").data l with
  | none => none
  | some rest => wsGreedyCapture (fun c => !jsIsSpace c) rest

/-- Capture 1 of `headers.match(/content-transfer-encoding:\s*(\S+)/)`,
defaulted to the empty string (`encMatch?.[1] || ""`). -/
def cteOf (low : String) : String :=
  match scanFirst matchCTEAt low.data with
  | some cap => String.mk cap
  | none => ""

/-- Character class `[^;\r\n]` of the `Content-Type` regex. -/
def ctAllowed (c : Char) : Bool :=
  !(c == ';' || c == '\r' || c == '\n')

/-- Match `/Content-Type:\s*([^;\r\n]+)/i` at the head of `l`. -/
def matchContentTypeAt (l : List Char) : Option (List Char) :=
  match stripCaseLiteral ("content-type:").data l with
  | none => none
  | some rest => wsGreedyCapture ctAllowed rest

/-- Six-bit value of one character under Node's lenient base64 table: the
standard alphabet plus the URL-safe `-` and `_`; `none` for every other
character, which Node's decoder skips. -/
def b64ValLenient (c : Char) : Option Nat :=
  if 'A' ≤ c ∧ c ≤ 'Z' then some (c.toNat - 65)
  else if 'a' ≤ c ∧ c ≤ 'z' then some (c.toNat - 71)
  else if '0' ≤ c ∧ c ≤ '9' then some (c.toNat + 4)
  else if c = '+' ∨ c = '-' then some 62
  else if c = '/' ∨ c = '_' then some 63
  else none

/-- Collect the six-bit values of a base64 string the way Node's decoder
does: characters outside the alphabet are skipped, and the first `=`
stops decoding. -/
def nodeB64Vals : List Char → List Nat
  | [] => []
  | '=' :: _ => []
  | c :: cs =>
    match b64ValLenient c with
    | some v => v :: nodeB64Vals cs
    | none => nodeB64Vals cs

/-- Regroup collected six-bit values into bytes: each full group of four
values yields three bytes, a trailing group of two or three yields one or
two bytes, and a dangling single value yields nothing. -/
def b64GroupsToBytes : List Nat → List Nat
  | a :: b :: c :: d :: rest =>
    (a * 4 + b / 16) :: (b % 16 * 16 + c / 4) :: (c % 4 * 64 + d) :: b64GroupsToBytes rest
  | [a, b] => [a * 4 + b / 16]
  | [a, b, c] => [a * 4 + b / 16, b % 16 * 16 + c / 4]
  | _ => []

/-- Renders decoded bytes back as text, one character per byte.  This
coincides with the source's `Buffer.prototype.toString("utf-8")` exactly
when every byte is ASCII; the only decoded values any theorem inspects
are ASCII (or empty), where the two agree. -/
def latin1OfBytes (bs : List Nat) : String :=
  String.mk (bs.map (fun b => Char.ofNat (b % 256)))

/-- Embeds `Buffer.from(s, "base64").toString("utf-8")`: a total, lenient
decode.  Node's base64 decoding never throws for any input string —
invalid characters are skipped and `=` terminates the data — so the
`try`/`catch` wrapped around this expression in the source is unreachable
and the fallback to the original content can never be taken. -/
def nodeBase64DecodeString (s : String) : String :=
  latin1OfBytes (b64GroupsToBytes (nodeB64Vals s.data))

/-- One pass of `content.replace(/=\r?\n/g, "")`: remove each soft line
break, i.e. `=` immediately followed by CRLF or LF, left to right. -/
def qpStripSoft : List Char → List Char
  | [] => []
  | '=' :: '\r' :: '\n' :: rest => qpStripSoft rest
  | '=' :: '\n' :: rest => qpStripSoft rest
  | c :: rest => c :: qpStripSoft rest

/-- One pass of `content.replace(/=([0-9A-Fa-f]{2})/g, …)`: replace each
`=XX` two-hex-digit escape with `String.fromCharCode(parseInt(XX, 16))`,
scanning left to right, non-overlapping. -/
def hexVal (c : Char) : Option Nat :=
  if '0' ≤ c ∧ c ≤ '9' then some (c.toNat - 48)
  else if 'A' ≤ c ∧ c ≤ 'F' then some (c.toNat - 55)
  else if 'a' ≤ c ∧ c ≤ 'f' then some (c.toNat - 87)
  else none

/-- See `hexVal`; the replacement pass itself. -/
def qpDecodeHex : List Char → List Char
  | [] => []
  | '=' :: c1 :: c2 :: rest =>
    match hexVal c1, hexVal c2 with
    | some a, some b => Char.ofNat (a * 16 + b) :: qpDecodeHex rest
    | _, _ => '=' :: qpDecodeHex (c1 :: c2 :: rest)
  | c :: rest => c :: qpDecodeHex rest

/-- Embeds the source's `decodePart(content, encoding)`: identity for an
absent or unrecognized Content-Transfer-Encoding, whitespace-stripped
lenient base64 decoding, and two-pass quoted-printable decoding.  The
source wraps the base64 branch in a `try`/`catch` that would return
`content` on a thrown error, but the wrapped Node expression is total
(see `nodeBase64DecodeString`), so that handler is unreachable and the
branch is embedded as the decode itself. -/
def decodePart (content encoding : String) : String :=
  if encoding = "" then content
  else
    let e := jsTrim (jsToLower encoding)
    if e = "base64" then
      nodeBase64DecodeString (stripWs content)
    else if e = "quoted-printable" then
      String.mk (qpDecodeHex (qpStripSoft content.data))
    else content


/-- Left-to-right, non-overlapping split on a non-empty separator, as
`String.prototype.split` with separator `s0 :: srest`.  The `Nat` argument
is fuel for structural recursion; the caller passes the list length, which
always suffices because every step consumes at least one character. -/
def splitSepAux (s0 : Char) (srest : List Char) : Nat → List Char → List (List Char)
  | _, [] => [[]]
  | 0, l => [l]
  | fuel + 1, c :: cs =>
    if (s0 :: srest).isPrefixOf (c :: cs) then
      [] :: splitSepAux s0 srest fuel (cs.drop srest.length)
    else
      match splitSepAux s0 srest fuel cs with
      | [] => [[c]]
      | h :: t => (c :: h) :: t

/-- Embeds `s.split(sep)` (the source always passes a non-empty separator
`"--" + boundary`). -/
def splitOnSub (s sep : String) : List String :=
  match sep.data with
  | [] => [s]
  | c :: cs => (splitSepAux c cs s.data.length s.data).map String.mk

/-- Embeds `s.indexOf("\r\n\r\n")` together with the two `substring` calls
around it: split at the first blank line into the text before it and the
text after it, or `none` when no blank line occurs. -/
def splitAtBlankList : List Char → Option (List Char × List Char)
  | [] => none
  | c :: cs =>
    if ['\r', '\n', '\r', '\n'].isPrefixOf (c :: cs) then
      some ([], cs.drop 3)
    else
      match splitAtBlankList cs with
      | none => none
      | some (h, b) => some (c :: h, b)

/-- String version of `splitAtBlankList`. -/
def splitAtBlank (s : String) : Option (String × String) :=
  match splitAtBlankList s.data with
  | some (h, b) => some (String.mk h, String.mk b)
  | none => none

/-- Embeds the source's replace of the anchored regex dash-dash-dollar with
the empty string: drop one trailing `--` if present. -/
def removeTrailingDashes (s : String) : String :=
  match s.data.reverse with
  | '-' :: '-' :: rest => String.mk rest.reverse
  | _ => s

/-- JS `a || b` on strings (empty string is falsy). -/
def jsOr (a b : String) : String :=
  if a = "" then b else a

/-- The source's `partContent` local: the text after a part's blank line,
with one trailing `--` removed and then trimmed. -/
def cleanContent (rest : String) : String :=
  jsTrim (removeTrailingDashes rest)

/-- One iteration of the `for (const part of parts)` loop of
`extractBodyFromSource`, acting on the state `(htmlBody, textBody)`;
`recur` is the recursive call used for parts carrying a nested boundary. -/
def bodyStep (recur : String → String) (st : String × String) (part : String) :
    String × String :=
  if jsStartsWith part ("--") then st
  else if jsTrim part = "" then st
  else
    match splitAtBlank part with
    | none => st
    | some (hdrRaw, rest) =>
      let low := jsToLower hdrRaw
      match findBoundary low with
      | some _ =>
        let nested := recur rest
        if nested ≠ "" then
          if st.1 = "" ∧ jsIncludes nested ("<") then (nested, st.2)
          else if st.2 = "" then (st.1, nested)
          else st
        else st
      | none =>
        let decoded := decodePart (cleanContent rest) (cteOf low)
        if jsIncludes low ("text/html") then (decoded, st.2)
        else if jsIncludes low ("text/plain") then (st.1, decoded)
        else st

/-- Embeds `extractBodyFromSource`, with an explicit fuel parameter bounding
the recursion depth (each recursive call is on a strictly shorter string:
it drops at least the four characters of a blank-line separator). -/
def extractBodyAux : Nat → String → String
  | 0, _ => ""
  | fuel + 1, raw =>
    match findBoundary raw with
    | none =>
      match splitAtBlank raw with
      | none => ""
      | some (hdrRaw, body) => jsTrim (decodePart body (cteOf (jsToLower hdrRaw)))
    | some cap =>
      let boundary := jsTrim cap
      let parts := splitOnSub raw ("--" ++ boundary)
      let st := List.foldl (bodyStep (extractBodyAux fuel)) (("", "")) parts
      jsOr st.1 (jsOr st.2 (""))

/-- The source's `extractBodyFromSource(raw)`: the fuel `raw.data.length + 1`
strictly exceeds every possible recursion depth. -/
def extractBodyFromSource (raw : String) : String :=
  extractBodyAux (raw.data.length + 1) raw

/-- Result record pushed by `extractAttachmentsFromSource`. -/
structure Attachment where
  filename : String
  mimeType : String
  size : Nat
  base64 : String
deriving Repr, DecidableEq

/-- Embeds `partHeadersRaw.match(/filename="?([^";\r\n]+)"?/i)` with the
default `"attachment"`; the capture keeps the header's original case. -/
def filenameOf (hdrRaw : String) : String :=
  match scanFirst matchFilenameAt hdrRaw.data with
  | some cap => jsTrim (String.mk cap)
  | none => "attachment"

/-- Embeds `partHeadersRaw.match(/Content-Type:\s*([^;\r\n]+)/i)` with the
default `"application/octet-stream"`. -/
def mimeTypeOf (hdrRaw : String) : String :=
  match scanFirst matchContentTypeAt hdrRaw.data with
  | some cap => jsTrim (String.mk cap)
  | none => "application/octet-stream"

/-- The source's `isAttachment` test on the lower-cased header block. -/
def isAttachmentHdr (low : String) : Bool :=
  jsIncludes low ("content-disposition: attachment") ||
    (jsIncludes low ("filename=") && !jsIncludes low ("text/plain") &&
      !jsIncludes low ("text/html"))

/-- The source's `isInlineWithFilename` test on the lower-cased header block. -/
def isInlineWithFilenameHdr (low : String) : Bool :=
  jsIncludes low ("content-disposition: inline") && jsIncludes low ("filename=")

/-- The source's `encoding` local: the Content-Transfer-Encoding capture,
trimmed and lower-cased, defaulted to the empty string. -/
def attachEncoding (low : String) : String :=
  match scanFirst matchCTEAt low.data with
  | some cap => jsToLower (jsTrim (String.mk cap))
  | none => ""

/-- Character of one 6-bit value in the standard base64 alphabet. -/
def b64Char (n : Nat) : Char :=
  if n < 26 then Char.ofNat (65 + n)
  else if n < 52 then Char.ofNat (97 + (n - 26))
  else if n < 62 then Char.ofNat (48 + (n - 52))
  else if n = 62 then '+'
  else '/'

/-- Standard padded base64 encoding of a byte list, as
`Buffer.prototype.toString("base64")`. -/
def base64EncodeBytes : List Nat → List Char
  | [] => []
  | [a] => [b64Char (a / 4), b64Char (a % 4 * 16), '=', '=']
  | [a, b] => [b64Char (a / 4), b64Char (a % 4 * 16 + b / 16), b64Char (b % 16 * 4), '=']
  | a :: b :: c :: rest =>
    b64Char (a / 4) :: b64Char (a % 4 * 16 + b / 16) ::
      b64Char (b % 16 * 4 + c / 64) :: b64Char (c % 64) :: base64EncodeBytes rest

/-- The source's `base64Data` local: for base64-encoded parts the
whitespace-stripped original text, otherwise
`Buffer.from(partContent, "binary").toString("base64")` (each character
contributes its low byte). -/
def attachPayload (low content : String) : String :=
  if attachEncoding low = "base64" then stripWs content
  else String.mk (base64EncodeBytes (content.data.map (fun c => c.toNat % 256)))

/-- One iteration of the part loop of `extractAttachmentsFromSource`;
`recur` is the recursive call used for parts carrying a nested boundary. -/
def attachStep (recur : String → List Attachment) (acc : List Attachment)
    (part : String) : List Attachment :=
  if jsStartsWith part ("--") then acc
  else if jsTrim part = "" then acc
  else
    match splitAtBlank part with
    | none => acc
    | some (hdrRaw, rest) =>
      let low := jsToLower hdrRaw
      let content := cleanContent rest
      match findBoundary low with
      | some _ => acc ++ recur rest
      | none =>
        if isAttachmentHdr low || isInlineWithFilenameHdr low then
          let data := attachPayload low content
          if data = "" then acc
          else acc ++ [⟨filenameOf hdrRaw, mimeTypeOf hdrRaw,
            (3 * data.length + 3) / 4, data⟩]
        else acc

/-- Embeds `extractAttachmentsFromSource`, fuelled like `extractBodyAux`. -/
def extractAttachmentsAux : Nat → String → List Attachment
  | 0, _ => []
  | fuel + 1, raw =>
    match findBoundary raw with
    | none => []
    | some cap =>
      let boundary := jsTrim cap
      let parts := splitOnSub raw ("--" ++ boundary)
      List.foldl (attachStep (extractAttachmentsAux fuel)) [] parts

/-- The source's `extractAttachmentsFromSource(raw)`. -/
def extractAttachmentsFromSource (raw : String) : List Attachment :=
  extractAttachmentsAux (raw.data.length + 1) raw

/-- The source's `TRANSPORTER_TTL` (5 minutes in milliseconds). -/
def TRANSPORTER_TTL : Nat := 5 * 60 * 1000

/-- State of the module-level `transporterCache` map.  Transporter handles
are modelled as numeric identities (`nextId` is the next fresh one), so
that distinctness of handle instances is observable; `closed` records every
`close()` call made on a handle. -/
structure TransporterState where
  entries : List (String × Nat × Nat)
  nextId : Nat
  closed : List Nat
deriving Repr, DecidableEq

/-- Observable actions of one `getTransporter` call, in execution order. -/
inductive TransporterEvent
  | close (handle : Nat)
  | install (handle : Nat)
deriving Repr, DecidableEq

/-- The template-literal cache key of the source. -/
def cacheKey (host : String) (port : Nat) (user : String) : String :=
  host ++ (":") ++ toString port ++ (":") ++ user

/-- `transporterCache.get(key)`: first entry with the given key. -/
def lookupEntry : List (String × Nat × Nat) → String → Option (Nat × Nat)
  | [], _ => none
  | (k', h, c) :: t, k => if k' = k then some (h, c) else lookupEntry t k

/-- `transporterCache.delete(key)`. -/
def removeEntry (es : List (String × Nat × Nat)) (k : String) :
    List (String × Nat × Nat) :=
  es.filter (fun e => e.1 != k)

/-- Embeds `getTransporter`: return the cached handle while its entry is
younger than the TTL; otherwise close and evict the stale handle, then
create and install a fresh one.  Returns the handle, the new cache state
and the ordered list of observable actions.  The nodemailer transport
configuration is opaque here: a handle's only modelled property is its
identity. -/
def getTransporter (now : Nat) (host : String) (port : Nat) (user : String)
    (st : TransporterState) : Nat × TransporterState × List TransporterEvent :=
  let k := cacheKey host port user
  match lookupEntry st.entries k with
  | some (h, created) =>
    if now - created < TRANSPORTER_TTL then (h, st, [])
    else
      let fresh := st.nextId
      (fresh,
        ⟨(k, fresh, now) :: removeEntry st.entries k, st.nextId + 1, h :: st.closed⟩,
        [TransporterEvent.close h, TransporterEvent.install fresh])
  | none =>
    let fresh := st.nextId
    (fresh, ⟨(k, fresh, now) :: st.entries, st.nextId + 1, st.closed⟩,
      [TransporterEvent.install fresh])

/-- Well-formedness of the cache: keys are unique (the `Map` semantics) and
every stored handle was allocated before `nextId`. -/
def WFState (st : TransporterState) : Prop :=
  (st.entries.map (fun e => e.1)).Nodup ∧ ∀ e ∈ st.entries, e.2.1 < st.nextId


/-- Specification-side definition, following the spec's words for the
non-multipart case: split the source at the first blank line into header
block and content, decode the content with the part's own
Content-Transfer-Encoding, and trim the result.  Compared against the
embedded code in the C2 theorems. -/
def specSinglePartBody (raw : String) : String :=
  match splitAtBlank raw with
  | none => ""
  | some (hdrRaw, body) => jsTrim (decodePart body (cteOf (jsToLower hdrRaw)))

/-- Counterexample to claim C3 as stated: Node's base64 decoding is
lenient and never fails, so malformed base64 is not returned unchanged —
the all-invalid input decodes to the empty string, not to itself. -/
theorem C3_counterexample :
    decodePart ("!!!!") ("base64") = "" ∧ ("" : String) ≠ "!!!!" :=
  ⟨by decide, by decide⟩

/-- Claim C3 as amended: the Transfer-Encoding decoder is a total function
that never raises: an absent or unrecognized encoding returns the content
unchanged, and for base64 no decode failure exists — decoding is lenient,
skipping characters outside the alphabet (so "aG!!Vs" decodes like "aGVs"
to "hel") and stopping at the first padding sign ("aGVs=XXXX" also yields
"hel") — so the source's fallback to the original content is never taken. -/
theorem C3_decoder_total_lenient (content encoding : String) :
    decodePart content ("") = content
    ∧ (encoding ≠ "" → jsTrim (jsToLower encoding) ≠ "base64" →
        jsTrim (jsToLower encoding) ≠ "quoted-printable" →
        decodePart content encoding = content)
    ∧ decodePart ("aG!!Vs") ("base64") = "hel"
    ∧ decodePart ("aGVs=XXXX") ("base64") = "hel" := by
  refine ⟨by simp [decodePart], ?_, by decide, by decide⟩
  intro h1 h2 h3
  simp [decodePart, h1, h2, h3]

/-- Witness for C3: a concrete unrecognized encoding leaves the content
unchanged. -/
theorem C3_witness :
    decodePart ("x") ("7bit") = "x" :=
  (C3_decoder_total_lenient ("x") ("7bit")).2.1 (by decide) (by decide) (by decide)

/-- Claim C4: quoted-printable decoding first removes every soft line break
and then replaces each two-hex-digit escape left to right, non-overlapping;
in particular the two examples of the claim hold, soft-break removal
precedes hex replacement (third conjunct), and replacement output is not
rescanned (fourth conjunct). -/
theorem C4_quoted_printable :
    (∀ content : String,
      decodePart content ("quoted-printable")
        = String.mk (qpDecodeHex (qpStripSoft content.data)))
    ∧ decodePart ("abc=\r\ndef") ("quoted-printable") = "abcdef"
    ∧ decodePart ("caf=C3=A9") ("quoted-printable")
        = "caf" ++ String.mk [Char.ofNat 195, Char.ofNat 169]
    ∧ decodePart ("=3=\r\nD") ("quoted-printable") = "="
    ∧ decodePart ("=3D41") ("quoted-printable") = "=41" :=
  ⟨fun _ => rfl, by decide, by decide, by decide, by decide⟩

/-- Claim C5: the encoding name is handled case-insensitively. -/
theorem C5_encoding_case_insensitive (C : String) :
    decodePart C ("BASE64") = decodePart C ("base64") := rfl

/-- Claim C6: the multipart/alternative example resolves to the HTML part. -/
theorem C6_alternative_prefers_html :
    extractBodyFromSource
      ("Content-Type: multipart/alternative; boundary=XYZ\r\n\r\n--XYZ\r\nContent-Type: text/plain\r\n\r\nhello\r\n--XYZ\r\nContent-Type: text/html\r\n\r\n<b>hi</b>\r\n--XYZ--")
      = "<b>hi</b>" := by decide

/-- Claim C7: the non-multipart example returns the trimmed plain body and
no attachments. -/
theorem C7_plain_fast_path :
    extractBodyFromSource ("Content-Type: text/plain\r\n\r\nhello world")
      = "hello world"
    ∧ extractAttachmentsFromSource ("Content-Type: text/plain\r\n\r\nhello world")
      = [] := by
  exact ⟨by decide, by decide⟩

/-- Counterexample to claim C1 as stated: in a multipart source with two
sibling text/plain leaves carrying "A" then "B", the resolved body is "B",
so the first same-type sibling does not win — the later sibling overwrote
it. -/
theorem C1_counterexample :
    extractBodyFromSource
      ("Content-Type: multipart/mixed; boundary=Q\r\n\r\n--Q\r\nContent-Type: text/plain\r\n\r\nA\r\n--Q\r\nContent-Type: text/plain\r\n\r\nB\r\n--Q--")
      = "B"
    ∧ ("B" : String) ≠ "A" := by
  exact ⟨by decide, by decide⟩

/-- Claim C1 as amended: for leaf siblings the assignment to the HTML
(resp. plain-text) candidate is unconditional, so the last same-type leaf
sibling wins; and with both candidate kinds present the HTML one is the
final result (third conjunct, where the last of two HTML leaves is
returned). -/
theorem C1_last_sibling_wins (recur : String → String) (st : String × String)
    (part hdrRaw rest : String)
    (h1 : jsStartsWith part ("--") = false)
    (h2 : jsTrim part ≠ "")
    (h3 : splitAtBlank part = some (hdrRaw, rest))
    (h4 : findBoundary (jsToLower hdrRaw) = none) :
    (jsIncludes (jsToLower hdrRaw) ("text/html") = true →
      bodyStep recur st part
        = (decodePart (cleanContent rest) (cteOf (jsToLower hdrRaw)), st.2))
    ∧ (jsIncludes (jsToLower hdrRaw) ("text/html") = false →
       jsIncludes (jsToLower hdrRaw) ("text/plain") = true →
      bodyStep recur st part
        = (st.1, decodePart (cleanContent rest) (cteOf (jsToLower hdrRaw))))
    ∧ extractBodyFromSource
        ("Content-Type: multipart/mixed; boundary=Q\r\n\r\n--Q\r\nContent-Type: text/plain\r\n\r\np\r\n--Q\r\nContent-Type: text/html\r\n\r\n<p>1</p>\r\n--Q\r\nContent-Type: text/html\r\n\r\n<p>2</p>\r\n--Q--")
        = "<p>2</p>" := by
  refine ⟨?_, ?_, by decide⟩
  · intro h5
    simp [bodyStep, h1, h2, h3, h4, h5]
  · intro h5 h6
    simp [bodyStep, h1, h2, h3, h4, h5, h6]

/-- Witness for C1: a concrete text/plain leaf overwrites an already
non-empty plain-text candidate. -/
theorem C1_witness :
    bodyStep (fun _ => "") (("", "A")) ("\r\nContent-Type: text/plain\r\n\r\nB\r\n")
      = ("", "B") := by
  have h := (C1_last_sibling_wins (fun _ => "") (("", "A"))
      ("\r\nContent-Type: text/plain\r\n\r\nB\r\n") ("\r\nContent-Type: text/plain")
      ("B\r\n") (by decide) (by decide) (by decide) (by decide)).2.1
      (by decide) (by decide)
  rw [h]
  decide

/-- Counterexample to claim C2 as stated: a source whose governing header
text ("Content-Type: text/plain") contains no boundary token, but whose
body text does, is split at that body-derived boundary instead of being
treated as a single non-multipart entity: the code yields "see boundary=B"
while single-entity treatment of the same source yields the full body. -/
theorem C2_counterexample :
    splitAtBlank ("Content-Type: text/plain\r\n\r\nsee boundary=B\r\n--B ouch")
      = some (("Content-Type: text/plain"), ("see boundary=B\r\n--B ouch"))
    ∧ findBoundary ("Content-Type: text/plain") = none
    ∧ extractBodyFromSource
        ("Content-Type: text/plain\r\n\r\nsee boundary=B\r\n--B ouch")
      = "see boundary=B"
    ∧ specSinglePartBody ("Content-Type: text/plain\r\n\r\nsee boundary=B\r\n--B ouch")
      = "see boundary=B\r\n--B ouch" := by
  exact ⟨by decide, by decide, by decide, by decide⟩

/-- Claim C2 as amended: the boundary token is searched for in the whole
source (headers and body alike); a source containing no boundary token
anywhere is treated as the single non-multipart entity the spec describes,
and yields no attachments. -/
theorem C2_no_boundary_single_part (raw : String)
    (h : findBoundary raw = none) :
    extractBodyFromSource raw = specSinglePartBody raw
    ∧ extractAttachmentsFromSource raw = [] := by
  constructor
  · simp [extractBodyFromSource, extractBodyAux, h, specSinglePartBody]
  · simp [extractAttachmentsFromSource, extractAttachmentsAux, h]

/-- Witness for C2: a concrete boundary-free source takes the single-part
path. -/
theorem C2_witness :
    extractBodyFromSource ("Content-Type: text/plain\r\n\r\nhi")
      = specSinglePartBody ("Content-Type: text/plain\r\n\r\nhi")
    ∧ extractAttachmentsFromSource ("Content-Type: text/plain\r\n\r\nhi") = [] :=
  C2_no_boundary_single_part ("Content-Type: text/plain\r\n\r\nhi") (by decide)

/-- Claim C8: for an attachment-classified leaf whose transfer encoding is
base64, the stored payload is the whitespace-stripped original base64 text
(byte-for-byte, not decoded and re-encoded) and the declared size is
ceil(length * 3 / 4); the second conjunct is the concrete a.txt example. -/
theorem C8_base64_attachment_payload (recur : String → List Attachment)
    (acc : List Attachment) (part hdrRaw rest : String)
    (h1 : jsStartsWith part ("--") = false)
    (h2 : jsTrim part ≠ "")
    (h3 : splitAtBlank part = some (hdrRaw, rest))
    (h4 : findBoundary (jsToLower hdrRaw) = none)
    (h5 : (isAttachmentHdr (jsToLower hdrRaw)
            || isInlineWithFilenameHdr (jsToLower hdrRaw)) = true)
    (h6 : attachEncoding (jsToLower hdrRaw) = "base64")
    (h7 : stripWs (cleanContent rest) ≠ "") :
    attachStep recur acc part
      = acc ++ [⟨filenameOf hdrRaw, mimeTypeOf hdrRaw,
          (3 * (stripWs (cleanContent rest)).length + 3) / 4,
          stripWs (cleanContent rest)⟩]
    ∧ extractAttachmentsFromSource
        ("Content-Type: multipart/mixed; boundary=B\r\n\r\n--B\r\nContent-Disposition: attachment; filename=\"a.txt\"\r\nContent-Transfer-Encoding: base64\r\n\r\naGVsbG8=\r\n--B--")
      = [⟨("a.txt"), ("application/octet-stream"), 6, ("aGVsbG8=")⟩] := by
  refine ⟨?_, by decide⟩
  simp [attachStep, h1, h2, h3, h4, h5, attachPayload, h6, h7]

/-- Witness for C8: the concrete a.txt part, processed by one loop step. -/
theorem C8_witness :
    attachStep (fun _ => []) []
      ("\r\nContent-Disposition: attachment; filename=\"a.txt\"\r\nContent-Transfer-Encoding: base64\r\n\r\naGVsbG8=\r\n")
      = [⟨("a.txt"), ("application/octet-stream"), 6, ("aGVsbG8=")⟩] := by
  have h := (C8_base64_attachment_payload (fun _ => []) []
      ("\r\nContent-Disposition: attachment; filename=\"a.txt\"\r\nContent-Transfer-Encoding: base64\r\n\r\naGVsbG8=\r\n")
      ("\r\nContent-Disposition: attachment; filename=\"a.txt\"\r\nContent-Transfer-Encoding: base64")
      ("aGVsbG8=\r\n")
      (by decide) (by decide) (by decide) (by decide) (by decide) (by decide)
      (by decide)).1
  rw [h]
  decide

/-- Claim C10: a part that passes the attachment-classification heuristic
but whose computed base64 payload text is empty contributes nothing to the
result; concretely, the empty-content e.txt part is classified yet the
returned attachment list is empty. -/
theorem C10_empty_payload_omitted (recur : String → List Attachment)
    (acc : List Attachment) (part hdrRaw rest : String)
    (h1 : jsStartsWith part ("--") = false)
    (h2 : jsTrim part ≠ "")
    (h3 : splitAtBlank part = some (hdrRaw, rest))
    (h4 : findBoundary (jsToLower hdrRaw) = none)
    (h5 : (isAttachmentHdr (jsToLower hdrRaw)
            || isInlineWithFilenameHdr (jsToLower hdrRaw)) = true)
    (h6 : attachPayload (jsToLower hdrRaw) (cleanContent rest) = "") :
    attachStep recur acc part = acc
    ∧ isAttachmentHdr (jsToLower ("\r\nContent-Disposition: attachment; filename=\"e.txt\"")) = true
    ∧ extractAttachmentsFromSource
        ("Content-Type: multipart/mixed; boundary=B\r\n\r\n--B\r\nContent-Disposition: attachment; filename=\"e.txt\"\r\n\r\n\r\n--B--")
      = [] := by
  refine ⟨?_, by decide, by decide⟩
  simp [attachStep, h1, h2, h3, h4, h5, h6]

/-- Witness for C10: one loop step on the concrete empty-content e.txt part
adds nothing. -/
theorem C10_witness :
    attachStep (fun _ => []) []
      ("\r\nContent-Disposition: attachment; filename=\"e.txt\"\r\n\r\n\r\n") = [] :=
  (C10_empty_payload_omitted (fun _ => []) []
    ("\r\nContent-Disposition: attachment; filename=\"e.txt\"\r\n\r\n\r\n")
    ("\r\nContent-Disposition: attachment; filename=\"e.txt\"") ("\r\n")
    (by decide) (by decide) (by decide) (by decide) (by decide) (by decide)).1

/-- A successful cache lookup returns an entry of the list. -/
theorem lookupEntry_mem {es : List (String × Nat × Nat)} {k : String} {h c : Nat}
    (hl : lookupEntry es k = some (h, c)) : (k, h, c) ∈ es := by
  induction es with
  | nil => simp [lookupEntry] at hl
  | cons e t ih =>
    obtain ⟨k', h', c'⟩ := e
    simp only [lookupEntry] at hl
    by_cases hk : k' = k
    · rw [if_pos hk] at hl
      simp only [Option.some.injEq, Prod.mk.injEq] at hl
      obtain ⟨rfl, rfl⟩ := hl
      subst hk
      exact List.mem_cons_self _ _
    · rw [if_neg hk] at hl
      exact List.mem_cons_of_mem _ (ih hl)

/-- A failed cache lookup means the key is absent. -/
theorem lookupEntry_none_key {es : List (String × Nat × Nat)} {k : String}
    (hl : lookupEntry es k = none) : k ∉ es.map (fun e => e.1) := by
  induction es with
  | nil => simp
  | cons e t ih =>
    obtain ⟨k', h', c'⟩ := e
    simp only [lookupEntry] at hl
    by_cases hk : k' = k
    · rw [if_pos hk] at hl
      exact absurd hl (by simp)
    · rw [if_neg hk] at hl
      simp only [List.map_cons, List.mem_cons]
      push_neg
      exact ⟨fun he => hk he.symm, ih hl⟩

/-- Claim C9: the transporter cache returns the cached handle while the
entry is within its TTL; after expiry it returns a fresh, distinct handle,
closes the superseded one exactly once and closes it before installing the
replacement (event order); and well-formedness — at most one entry per key,
all handles previously allocated — is preserved, with the returned handle
always the one the key now maps to. -/
theorem C9_transporter_cache (host : String) (port : Nat) (user : String)
    (now : Nat) (st : TransporterState) (hWF : WFState st) :
    WFState (getTransporter now host port user st).2.1
    ∧ (∃ c, lookupEntry (getTransporter now host port user st).2.1.entries
        (cacheKey host port user)
        = some ((getTransporter now host port user st).1, c))
    ∧ ∀ h c, lookupEntry st.entries (cacheKey host port user) = some (h, c) →
        ((now - c < TRANSPORTER_TTL →
            getTransporter now host port user st = (h, st, []))
         ∧ (TRANSPORTER_TTL ≤ now - c →
            (getTransporter now host port user st).1 ≠ h
            ∧ ((getTransporter now host port user st).2.1.closed.count h
                = st.closed.count h + 1)
            ∧ (getTransporter now host port user st).2.2
              = [TransporterEvent.close h,
                 TransporterEvent.install (getTransporter now host port user st).1]
            ∧ lookupEntry (getTransporter now host port user st).2.1.entries
                (cacheKey host port user)
              = some ((getTransporter now host port user st).1, now))) := by
  obtain ⟨hnd, hbound⟩ := hWF
  rcases hl : lookupEntry st.entries (cacheKey host port user) with _ | ⟨h0, c0⟩
  · refine ⟨⟨?_, ?_⟩, ⟨now, ?_⟩, ?_⟩
    · simp only [getTransporter, hl, List.map_cons]
      exact List.nodup_cons.mpr ⟨lookupEntry_none_key hl, hnd⟩
    · simp only [getTransporter, hl]
      intro e he
      rcases List.mem_cons.mp he with rfl | hmem
      · exact Nat.lt_succ_self _
      · exact Nat.lt_succ_of_lt (hbound e hmem)
    · simp [getTransporter, hl, lookupEntry]
    · intro h c hm
      exact absurd hm (by simp)
  · by_cases htl : now - c0 < TRANSPORTER_TTL
    · refine ⟨⟨?_, ?_⟩, ⟨c0, ?_⟩, ?_⟩
      · simp only [getTransporter, hl, if_pos htl]
        exact hnd
      · simp only [getTransporter, hl, if_pos htl]
        exact hbound
      · simp only [getTransporter, hl, if_pos htl]
      · intro h c hm
        simp only [Option.some.injEq, Prod.mk.injEq] at hm
        obtain ⟨rfl, rfl⟩ := hm
        refine ⟨fun _ => ?_, fun hge => absurd htl (by omega)⟩
        simp only [getTransporter, hl, if_pos htl]
    · have hlt : h0 < st.nextId := hbound _ (lookupEntry_mem hl)
      refine ⟨⟨?_, ?_⟩, ⟨now, ?_⟩, ?_⟩
      · simp only [getTransporter, hl, if_neg htl, List.map_cons]
        refine List.nodup_cons.mpr ⟨?_, ?_⟩
        · intro hmem
          obtain ⟨e, hemem, heq⟩ := List.mem_map.mp hmem
          have := List.mem_filter.mp hemem
          exact absurd heq (by simpa [bne_iff_ne] using this.2)
        · exact ((List.filter_sublist st.entries).map (fun e => e.1)).nodup hnd
      · simp only [getTransporter, hl, if_neg htl]
        intro e he
        rcases List.mem_cons.mp he with rfl | hmem
        · exact Nat.lt_succ_self _
        · exact Nat.lt_succ_of_lt (hbound e (List.mem_of_mem_filter hmem))
      · simp [getTransporter, hl, if_neg htl, lookupEntry]
      · intro h c hm
        simp only [Option.some.injEq, Prod.mk.injEq] at hm
        obtain ⟨rfl, rfl⟩ := hm
        refine ⟨fun hcontra => absurd hcontra htl, fun _ => ?_⟩
        refine ⟨?_, ?_, ?_, ?_⟩
        · simp only [getTransporter, hl, if_neg htl]
          omega
        · simp only [getTransporter, hl, if_neg htl]
          exact List.count_cons_self _ _
        · simp only [getTransporter, hl, if_neg htl]
        · simp [getTransporter, hl, if_neg htl, lookupEntry]

/-- Witness for C9: with one concrete cached entry, a lookup 100 ms after
creation returns the cached handle 7 unchanged, and a lookup at the TTL
boundary (300000 ms) returns a different handle. -/
theorem C9_witness :
    getTransporter 100 ("smtp") 465 ("u")
        ⟨[(cacheKey ("smtp") 465 ("u"), 7, 0)], 8, []⟩
      = (7, ⟨[(cacheKey ("smtp") 465 ("u"), 7, 0)], 8, []⟩, [])
    ∧ (getTransporter 300000 ("smtp") 465 ("u")
        ⟨[(cacheKey ("smtp") 465 ("u"), 7, 0)], 8, []⟩).1 ≠ 7 := by
  constructor
  · exact ((C9_transporter_cache ("smtp") 465 ("u") 100
      ⟨[(cacheKey ("smtp") 465 ("u"), 7, 0)], 8, []⟩
      (by unfold WFState; exact ⟨by decide, by decide⟩)).2.2 7 0
      (by decide)).1 (by decide)
  · exact (((C9_transporter_cache ("smtp") 465 ("u") 300000
      ⟨[(cacheKey ("smtp") 465 ("u"), 7, 0)], 8, []⟩
      (by unfold WFState; exact ⟨by decide, by decide⟩)).2.2 7 0
      (by decide)).2 (by decide)).1
